import Mathlib

/-!
Verification development for `gaspressures.c` (subsurface): the cylinder
pressure interpolation engine.  The C code is embedded shallowly:

* `struct plot_data` (the fields this file uses) becomes `PlotData`;
  `pr_track_t` becomes `PrTrack`; `pr_interpolate_t` becomes `PrInterpolate`.
* C `int` arithmetic is modelled by `Int`.  The intermediate `double`
  computations (`(start - end) * (double)pt / pt_sum`, `magic`, `rint`) are
  modelled as exact rational arithmetic; the conversion of a `double` back to
  `int` truncates toward zero, so `trunc(a/b)` is `Int.tdiv a b`, and `rint`
  (round to nearest, ties to even, the C default rounding mode) becomes
  `rint_div`.
* the per-cylinder arrays `track_pr[]` / `cur_pr[]` become total functions
  `Int → _`, updated pointwise.
-/

/-- Truncating division written on an explicit numerator/denominator pair:
`Int.tdiv n d` is exactly the C conversion `(int)((double)n / d)` for `d ≠ 0`
(the double arithmetic of the source is exact on these magnitudes). -/
def trunc_div (n d : Int) : Int := Int.tdiv n d

/-- Round-to-nearest with ties to even of the fraction `n / d` (`d ≠ 0`):
the C `rint` under the default rounding mode, applied to an exact quotient.
Computed with floor division after normalising the sign of `d`. -/
def rint_div (n d : Int) : Int :=
  let n' := if d < 0 then -n else n
  let d' := if d < 0 then -d else d
  let q := n' / d'
  let r := n' - q * d'
  if 2 * r < d' then q
  else if d' < 2 * r then q + 1
  else if q % 2 = 0 then q else q + 1

/-- One sample of the dive profile (`struct plot_data`, the fields used by
gaspressures.c): elapsed time, depth, active cylinder index, the
sensor/interpolated pressure slots for the main and diluent tracks, and the
derived pressure-time contribution. -/
structure PlotData where
  sec : Int
  depth : Int
  cylinderindex : Int
  pressure_sensor : Int
  pressure_interpolated : Int
  diluentpressure_sensor : Int
  diluentpressure_interpolated : Int
  pressure_time : Int
deriving DecidableEq

/-- One pressure-tracking segment (`pr_track_t`): start/end pressure (0 means
unknown), start/end time, accumulated pressure-time.  The C linked list
becomes `List PrTrack`. -/
structure PrTrack where
  start : Int
  end_ : Int
  t_start : Int
  t_end : Int
  pressure_time : Int
deriving DecidableEq

/-- The interpolation window built by `get_pr_interpolate_data`
(`pr_interpolate_t`). -/
structure PrInterpolate where
  start : Int
  end_ : Int
  acc_pressure_time : Int
  pressure_time : Int
deriving DecidableEq

/-- Modelled from the spec: the fixed cylinder-index space bound
(`MAX_CYLINDERS`, defined in a header that is not part of the sources here).
The claims do not depend on its value. -/
def MAX_CYLINDERS : Int := 20

/-- Modelled from the spec: the reserved diluent cylinder slot, the one extra
slot beyond the per-cylinder ones ("one slot per supported cylinder plus one
reserved slot for the diluent cylinder"; the source comments call it
`cur_pr[MAX_CYLINDERS]`). -/
def DILUENT_CYLINDER : Int := MAX_CYLINDERS

/-- Modelled from the spec: the fixed surface-threshold depth constant below
which no workload accrues (`SURFACE_THRESHOLD`, defined outside these
sources; the repository uses 120 mm).  The claims hold for any value. -/
def SURFACE_THRESHOLD : Int := 120

/-- The `SENSOR_PRESSURE(entry)` accessor macro. -/
def SENSOR_PRESSURE (e : PlotData) : Int := e.pressure_sensor

/-- The `DILUENT_PRESSURE(entry)` accessor macro. -/
def DILUENT_PRESSURE (e : PlotData) : Int := e.diluentpressure_sensor

/-- `calc_pressure_time`: the pressure-time between two plot data entries.
The external `depth_to_mbar(depth, dive)` conversion (not part of these
sources; per the spec a monotone depth → ambient pressure map with the dive's
environment folded in) is passed as the function `d2m`.  The C `/ 2` on two
`int`s truncates toward zero. -/
def calc_pressure_time (d2m : Int → Int) (a b : PlotData) : Int :=
  let time := b.sec - a.sec
  let depth := Int.tdiv (a.depth + b.depth) 2
  if depth ≤ SURFACE_THRESHOLD then 0
  else d2m depth * time

/-- Written from the spec sentence of claim C1, for comparison with
`calc_pressure_time`: "pressure-time(a,b) = mean_depth(a,b) ×
elapsed_time(a,b) × ambient_pressure_at(mean_depth)", zero when the mean
depth does not exceed the surface threshold. -/
def C1_spec_pressure_time (d2m : Int → Int) (a b : PlotData) : Int :=
  let time := b.sec - a.sec
  let depth := Int.tdiv (a.depth + b.depth) 2
  if depth ≤ SURFACE_THRESHOLD then 0
  else depth * time * d2m depth

/-- Written from the amended claim C1: the contribution is
`ambient_pressure_at(mean_depth) × elapsed_time` (the depth weighting lives
inside the ambient-pressure conversion), and zero at or below the surface
threshold. -/
def C1_amended_pressure_time (d2m : Int → Int) (a b : PlotData) : Int :=
  if Int.tdiv (a.depth + b.depth) 2 ≤ SURFACE_THRESHOLD then 0
  else d2m (Int.tdiv (a.depth + b.depth) 2) * (b.sec - a.sec)

/-- The scan loop of `fill_missing_segment_pressures`: the maximal run of
segments from the head up to and including the first segment with a known
(non-zero) end pressure, or the whole list when none has one.  Returns the
run and the remaining segments. -/
def splitRun : List PrTrack → List PrTrack × List PrTrack
  | [] => ([], [])
  | s :: rest =>
    if s.end_ ≠ 0 then ([s], rest)
    else
      match rest with
      | [] => ([s], [])
      | _ :: _ =>
        let p := splitRun rest
        (s :: p.1, p.2)

/-- The value of the scan variable `end` when the loop exits: the first known
end pressure in the run, or the head's original start pressure when the run
reaches the chain's end without finding one. -/
def runEnd (startHead : Int) (run : List PrTrack) : Int :=
  match run.getLast? with
  | none => startHead
  | some t => if t.end_ = 0 then startHead else t.end_

/-- The boundary pressure the dole-out loop computes at running pressure-time
`pt`: `start`, minus `(start − end) * pt / pt_sum` when `pt_sum` is non-zero,
the `double` result truncated toward zero by the `int` store
(`trunc(st − (st−e)·pt/S) = trunc((st·S − (st−e)·pt)/S)`). -/
def pressureAt (st e S pt : Int) : Int :=
  if S ≠ 0 then trunc_div (st * S - (st - e) * pt) S else st

/-- The dole-out loop of `fill_missing_segment_pressures`: walk the run
keeping the running pressure-time `pt`; each segment's end is set to the
boundary pressure at `pt`, which is propagated as the next segment's start
(`prev`). -/
def doleRun (st e S : Int) : Int → Int → List PrTrack → List PrTrack
  | _, _, [] => []
  | pt, prev, s :: rest =>
    let pt' := pt + s.pressure_time
    let pressure := pressureAt st e S pt'
    { s with start := prev, end_ := pressure } :: doleRun st e S pt' pressure rest

theorem splitRun_cons_known {s : PrTrack} (rest : List PrTrack) (h : s.end_ ≠ 0) :
    splitRun (s :: rest) = ([s], rest) := by
  simp [splitRun, h]

theorem splitRun_single_unknown {s : PrTrack} (h : s.end_ = 0) :
    splitRun [s] = ([s], []) := by
  simp [splitRun, h]

theorem splitRun_cons_unknown {s t : PrTrack} (r : List PrTrack) (h : s.end_ = 0) :
    splitRun (s :: t :: r) = (s :: (splitRun (t :: r)).1, (splitRun (t :: r)).2) := by
  simp [splitRun, h]

theorem splitRun_append_eq (l : List PrTrack) : (splitRun l).1 ++ (splitRun l).2 = l := by
  induction l with
  | nil => rfl
  | cons s rest ih =>
    by_cases h : s.end_ = 0
    · cases rest with
      | nil => simp [splitRun_single_unknown h]
      | cons t r =>
        rw [splitRun_cons_unknown r h]
        simpa using ih
    · simp [splitRun_cons_known rest h]

theorem splitRun_fst_ne_nil (s : PrTrack) (rest : List PrTrack) :
    (splitRun (s :: rest)).1 ≠ [] := by
  by_cases h : s.end_ = 0
  · cases rest with
    | nil => simp [splitRun_single_unknown h]
    | cons t r => simp [splitRun_cons_unknown r h]
  · simp [splitRun_cons_known rest h]

theorem splitRun_snd_length_lt (s : PrTrack) (rest : List PrTrack) :
    (splitRun (s :: rest)).2.length < (s :: rest).length := by
  have h := splitRun_append_eq (s :: rest)
  have hlen : (splitRun (s :: rest)).1.length + (splitRun (s :: rest)).2.length
      = (s :: rest).length := by
    rw [← List.length_append, h]
  have hne := splitRun_fst_ne_nil s rest
  have hpos : 0 < (splitRun (s :: rest)).1.length := List.length_pos.mpr hne
  omega

/-- The outer `while (list)` loop of `fill_missing_segment_pressures`,
written with a structural fuel so that it evaluates by kernel reduction;
every run consumes at least one segment, so a fuel of `l.length` always
suffices (see `fill_go_fuel_irrelevant`). -/
def fill_go : Nat → List PrTrack → List PrTrack
  | _, [] => []
  | 0, s :: tail => s :: tail
  | fuel + 1, s :: tail =>
    let run := (splitRun (s :: tail)).1
    let e := runEnd s.start run
    let st := if s.start = 0 then e else s.start
    let S := (run.map PrTrack.pressure_time).sum
    doleRun st e S 0 st run ++ fill_go fuel (splitRun (s :: tail)).2

/-- `fill_missing_segment_pressures`: for one cylinder's segment chain,
process each maximal run in turn: scan it to find `start`, `end` and the
total pressure-time, then dole out the boundary pressures in proportion to
the running pressure-time. -/
def fill_missing_segment_pressures (l : List PrTrack) : List PrTrack :=
  fill_go l.length l

theorem fill_go_fuel_irrelevant :
    ∀ (fuel₁ : Nat) (l : List PrTrack) (fuel₂ : Nat), l.length ≤ fuel₁ →
      l.length ≤ fuel₂ → fill_go fuel₁ l = fill_go fuel₂ l := by
  intro fuel₁
  induction fuel₁ with
  | zero =>
    intro l fuel₂ h₁ _
    have : l = [] := List.length_eq_zero.mp (Nat.le_zero.mp h₁)
    subst this
    cases fuel₂ <;> rfl
  | succ n ih =>
    intro l fuel₂ h₁ h₂
    cases l with
    | nil => cases fuel₂ <;> rfl
    | cons s tail =>
      cases fuel₂ with
      | zero => simp at h₂
      | succ m =>
        have hrest := splitRun_snd_length_lt s tail
        simp only [List.length_cons] at hrest h₁ h₂
        simp only [fill_go]
        rw [ih (splitRun (s :: tail)).2 m (by omega) (by omega)]

/-- Concrete profile entry builder used by the concrete test inputs below. -/
def mkEntry (sec depth cyl ps pd pt : Int) : PlotData :=
  { sec := sec, depth := depth, cylinderindex := cyl, pressure_sensor := ps,
    pressure_interpolated := 0, diluentpressure_sensor := pd,
    diluentpressure_interpolated := 0, pressure_time := pt }

/-- Concrete segment builder used by the concrete test inputs below. -/
def mkSeg (start e tstart tend pt : Int) : PrTrack :=
  { start := start, end_ := e, t_start := tstart, t_end := tend,
    pressure_time := pt }

theorem fill_eq_nil : fill_missing_segment_pressures [] = [] := rfl

theorem fill_eq_cons (s : PrTrack) (tail : List PrTrack) :
    fill_missing_segment_pressures (s :: tail) =
      doleRun (if s.start = 0 then runEnd s.start (splitRun (s :: tail)).1 else s.start)
        (runEnd s.start (splitRun (s :: tail)).1)
        (((splitRun (s :: tail)).1.map PrTrack.pressure_time).sum)
        0
        (if s.start = 0 then runEnd s.start (splitRun (s :: tail)).1 else s.start)
        (splitRun (s :: tail)).1
      ++ fill_missing_segment_pressures (splitRun (s :: tail)).2 := by
  show fill_go (s :: tail).length (s :: tail) = _
  simp only [List.length_cons, fill_go, fill_missing_segment_pressures]
  rw [fill_go_fuel_irrelevant tail.length (splitRun (s :: tail)).2
    (splitRun (s :: tail)).2.length
    (by
      have hrest := splitRun_snd_length_lt s tail
      simp only [List.length_cons] at hrest
      omega)
    (le_refl _)]

/-- A segment-redistribution run on concrete data: known boundaries 100 and
50, pressure-times 3 and 5. -/
example :
    fill_missing_segment_pressures [mkSeg 100 0 0 10 3, mkSeg 0 50 10 20 5]
      = [mkSeg 100 81 0 10 3, mkSeg 81 50 10 20 5] := by
  decide

/-- C1: for consecutive profile entries the workload integrator's
contribution is claimed to be mean_depth × elapsed_time ×
ambient_pressure_at(mean_depth); the code computes
ambient_pressure_at(mean_depth) × elapsed_time, without the extra mean-depth
factor.  Counterexample at two 10000 mm samples 10 s apart, with a concrete
monotone ambient-pressure map. -/
theorem C1_counterexample :
    calc_pressure_time (fun d => 1000 + d)
        (mkEntry 0 10000 0 0 0 0) (mkEntry 10 10000 0 0 0 0) = 110000 ∧
    C1_spec_pressure_time (fun d => 1000 + d)
        (mkEntry 0 10000 0 0 0 0) (mkEntry 10 10000 0 0 0 0) = 1100000000 ∧
    (110000 : Int) ≠ 1100000000 :=
  ⟨by decide, by decide, by decide⟩

/-- C1 (amended): the pressure-time contribution of a consecutive entry pair
equals ambient_pressure_at(mean_depth) × elapsed_time — the depth weighting
is inside the ambient-pressure conversion — where mean depth is the
truncated integer mean of the two depths, and the contribution is zero
whenever that mean depth does not exceed the surface threshold. -/
theorem C1_amended_ok (d2m : Int → Int) (a b : PlotData) :
    calc_pressure_time d2m a b = C1_amended_pressure_time d2m a b := by
  simp [calc_pressure_time, C1_amended_pressure_time]

/-- The running pressure-time through the first `k` segments of a run. -/
def prefixPT (l : List PrTrack) (k : Nat) : Int :=
  ((l.take k).map PrTrack.pressure_time).sum

theorem prefixPT_zero (l : List PrTrack) : prefixPT l 0 = 0 := rfl

theorem prefixPT_cons_succ (s : PrTrack) (rest : List PrTrack) (k : Nat) :
    prefixPT (s :: rest) (k + 1) = s.pressure_time + prefixPT rest k := by
  simp [prefixPT]

theorem prefixPT_succ_of_getElem (l : List PrTrack) (k : Nat) (x : PrTrack)
    (h : l[k]? = some x) :
    prefixPT l (k + 1) = prefixPT l k + x.pressure_time := by
  simp [prefixPT, List.take_succ, h]

theorem doleRun_length (st e S : Int) :
    ∀ (l : List PrTrack) (pt prev : Int), (doleRun st e S pt prev l).length = l.length := by
  intro l
  induction l with
  | nil => intro pt prev; rfl
  | cons s rest ih => intro pt prev; simp [doleRun, ih]

theorem doleRun_getElem_end (st e S : Int) :
    ∀ (l : List PrTrack) (pt prev : Int) (k : Nat), k < l.length →
      ((doleRun st e S pt prev l)[k]?).map PrTrack.end_
        = some (pressureAt st e S (pt + prefixPT l (k + 1))) := by
  intro l
  induction l with
  | nil => intro pt prev k hk; simp at hk
  | cons s rest ih =>
    intro pt prev k hk
    cases k with
    | zero => simp [doleRun, prefixPT_cons_succ, prefixPT_zero]
    | succ k =>
      simp only [doleRun, List.getElem?_cons_succ]
      rw [ih (pt + s.pressure_time) (pressureAt st e S (pt + s.pressure_time)) k
        (by simp at hk; omega)]
      rw [prefixPT_cons_succ]
      ring_nf

theorem doleRun_getElem_start (st e S : Int) :
    ∀ (l : List PrTrack) (pt prev : Int) (k : Nat), k < l.length →
      ((doleRun st e S pt prev l)[k]?).map PrTrack.start
        = some (if k = 0 then prev else pressureAt st e S (pt + prefixPT l k)) := by
  intro l
  induction l with
  | nil => intro pt prev k hk; simp at hk
  | cons s rest ih =>
    intro pt prev k hk
    cases k with
    | zero => simp [doleRun]
    | succ k =>
      simp only [doleRun, List.getElem?_cons_succ]
      rw [ih (pt + s.pressure_time) (pressureAt st e S (pt + s.pressure_time)) k
        (by simp at hk; omega)]
      cases k with
      | zero => simp [prefixPT_cons_succ, prefixPT_zero]
      | succ m =>
        simp only [Nat.succ_ne_zero, if_false, Option.some.injEq]
        rw [prefixPT_cons_succ]
        ring_nf

theorem doleRun_head_start (st e S pt prev : Int) (s : PrTrack) (rest : List PrTrack) :
    ((doleRun st e S pt prev (s :: rest)).head?).map PrTrack.start = some prev := by
  simp [doleRun]

theorem splitRun_of_run :
    ∀ (l : List PrTrack), l ≠ [] → (∀ s ∈ l.dropLast, s.end_ = 0) →
      splitRun l = (l, []) := by
  intro l
  induction l with
  | nil => intro h; exact absurd rfl h
  | cons a rest ih =>
    intro _ h
    cases rest with
    | nil =>
      by_cases ha : a.end_ = 0
      · exact splitRun_single_unknown ha
      · rw [splitRun_cons_known [] ha]
    | cons b r =>
      have ha : a.end_ = 0 := h a (by rw [List.dropLast_cons₂]; exact List.mem_cons_self a _)
      rw [splitRun_cons_unknown r ha,
        ih (by simp) (fun s hs => h s (by rw [List.dropLast_cons₂]; exact List.mem_cons_of_mem a hs))]

theorem pressureAt_S_zero (st e pt : Int) : pressureAt st e 0 pt = st := by
  simp [pressureAt]

theorem pressureAt_pt_zero (st e S : Int) : pressureAt st e S 0 = st := by
  unfold pressureAt trunc_div
  by_cases h : S = 0
  · simp [h]
  · simp only [h, if_true, ne_eq, not_false_iff, mul_zero, sub_zero]
    exact Int.mul_tdiv_cancel st h

theorem pressureAt_total (st e S : Int) (hS : S ≠ 0) : pressureAt st e S S = e := by
  unfold pressureAt trunc_div
  simp only [hS, ne_eq, not_false_iff, if_true]
  have : st * S - (st - e) * S = e * S := by ring
  rw [this]
  exact Int.mul_tdiv_cancel e hS

theorem fill_of_run (s : PrTrack) (tail : List PrTrack)
    (h : ∀ x ∈ (s :: tail).dropLast, x.end_ = 0) :
    fill_missing_segment_pressures (s :: tail) =
      doleRun (if s.start = 0 then runEnd s.start (s :: tail) else s.start)
        (runEnd s.start (s :: tail)) (((s :: tail).map PrTrack.pressure_time).sum)
        0 (if s.start = 0 then runEnd s.start (s :: tail) else s.start) (s :: tail) := by
  rw [fill_eq_cons, splitRun_of_run (s :: tail) (by simp) h]
  simp [fill_eq_nil]

theorem fill_length_aux :
    ∀ (n : Nat) (l : List PrTrack), l.length ≤ n →
      (fill_missing_segment_pressures l).length = l.length := by
  intro n
  induction n with
  | zero =>
    intro l h
    have : l = [] := List.length_eq_zero.mp (Nat.le_zero.mp h)
    subst this
    rfl
  | succ n ih =>
    intro l h
    cases l with
    | nil => rfl
    | cons s tail =>
      rw [fill_eq_cons]
      have hrest := splitRun_snd_length_lt s tail
      simp only [List.length_cons] at hrest h
      rw [List.length_append, doleRun_length,
        ih (splitRun (s :: tail)).2 (by omega)]
      have := splitRun_append_eq (s :: tail)
      have hlen : (splitRun (s :: tail)).1.length + (splitRun (s :: tail)).2.length
          = (s :: tail).length := by rw [← List.length_append, this]
      simp at hlen ⊢
      omega

theorem fill_length (l : List PrTrack) :
    (fill_missing_segment_pressures l).length = l.length :=
  fill_length_aux l.length l (le_refl _)

theorem fill_ne_nil {l : List PrTrack} (h : l ≠ []) :
    fill_missing_segment_pressures l ≠ [] := by
  intro hc
  apply h
  have := fill_length l
  rw [hc] at this
  exact List.length_eq_zero.mp this.symm

theorem splitRun_append :
    ∀ (l₁ l₂ : List PrTrack), l₁ ≠ [] →
      (∀ u, l₁.getLast? = some u → u.end_ ≠ 0) →
      splitRun (l₁ ++ l₂) = ((splitRun l₁).1, (splitRun l₁).2 ++ l₂) := by
  intro l₁
  induction l₁ with
  | nil => intro l₂ h; exact absurd rfl h
  | cons a rest ih =>
    intro l₂ _ h
    cases rest with
    | nil =>
      have ha : a.end_ ≠ 0 := h a (by simp)
      rw [List.cons_append, List.nil_append, splitRun_cons_known l₂ ha,
        splitRun_cons_known [] ha]
      simp
    | cons b r =>
      by_cases ha : a.end_ = 0
      · rw [List.cons_append, List.cons_append, splitRun_cons_unknown (r ++ l₂) ha]
        rw [← List.cons_append, ih l₂ (by simp) (fun u hu => h u (by rwa [List.getLast?_cons_cons]))]
        rw [splitRun_cons_unknown r ha]
      · rw [List.cons_append, splitRun_cons_known ((b :: r) ++ l₂) ha,
          splitRun_cons_known (b :: r) ha]


theorem fill_append_aux :
    ∀ (n : Nat) (l₁ l₂ : List PrTrack), l₁.length ≤ n →
      (∀ u, l₁.getLast? = some u → u.end_ ≠ 0) →
      fill_missing_segment_pressures (l₁ ++ l₂)
        = fill_missing_segment_pressures l₁ ++ fill_missing_segment_pressures l₂ := by
  intro n
  induction n with
  | zero =>
    intro l₁ l₂ hlen _
    have : l₁ = [] := List.length_eq_zero.mp (Nat.le_zero.mp hlen)
    subst this
    simp [fill_eq_nil]
  | succ n ih =>
    intro l₁ l₂ hlen hbr
    cases l₁ with
    | nil => simp [fill_eq_nil]
    | cons s tail =>
      have hsa := splitRun_append (s :: tail) l₂ (by simp) hbr
      have hsnd : ∀ u, (splitRun (s :: tail)).2.getLast? = some u → u.end_ ≠ 0 := by
        intro u hu
        rcases hq : (splitRun (s :: tail)).2 with _ | ⟨c, cs⟩
        · rw [hq] at hu; simp at hu
        · apply hbr
          rw [← splitRun_append_eq (s :: tail),
            List.getLast?_append_of_ne_nil _ (by rw [hq]; simp)]
          exact hu
      have hlen2 : (splitRun (s :: tail)).2.length ≤ n := by
        have := splitRun_snd_length_lt s tail
        simp only [List.length_cons] at this hlen
        omega
      rw [List.cons_append, fill_eq_cons s (tail ++ l₂), ← List.cons_append, hsa]
      simp only
      rw [ih (splitRun (s :: tail)).2 l₂ hlen2 hsnd]
      rw [fill_eq_cons s tail, List.append_assoc]

theorem fill_append (l₁ l₂ : List PrTrack)
    (hbr : ∀ u, l₁.getLast? = some u → u.end_ ≠ 0) :
    fill_missing_segment_pressures (l₁ ++ l₂)
      = fill_missing_segment_pressures l₁ ++ fill_missing_segment_pressures l₂ :=
  fill_append_aux l₁.length l₁ l₂ (le_refl _) hbr

theorem fill_head_start (s : PrTrack) (tail : List PrTrack) (hs : s.start ≠ 0) :
    ((fill_missing_segment_pressures (s :: tail)).head?).map PrTrack.start
      = some s.start := by
  rw [fill_eq_cons]
  obtain ⟨r₀, rr, hr⟩ := List.exists_cons_of_ne_nil (splitRun_fst_ne_nil s tail)
  rw [hr, if_neg hs]
  simp [doleRun]

/-- C3 counterexample: a single-segment chain whose start (100) and end (50)
pressures are both known but whose accumulated pressure-time is zero.  The
claim says redistribution preserves the known end exactly; the code's
`pt_sum == 0` guard leaves the doled pressure at `start`, overwriting the
known end 50 with 100. -/
theorem C3_counterexample :
    (mkSeg 100 50 0 10 0).start = 100 ∧ (mkSeg 100 50 0 10 0).end_ = 50 ∧
    ((100 : Int) ≠ 0) ∧ ((50 : Int) ≠ 0) ∧
    fill_missing_segment_pressures [mkSeg 100 50 0 10 0]
      = [mkSeg 100 100 0 10 0] ∧
    ((100 : Int) ≠ 50) :=
  ⟨rfl, rfl, by decide, by decide, by decide, by decide⟩

/-- C3 (amended): for a chain `l₁ ++ run` whose first segment's start
pressure is known (non-zero) and whose last segment's end pressure is known,
where `run` is the final maximal run (interior end pressures all unknown,
`l₁` empty or ending in a segment with known end), redistribution preserves
the first start and — provided the final run's total pressure-time is
non-zero — the last end exactly.  (When that total is zero the code
overwrites the known end with the run's start value.) -/
theorem C3_amended_ok (l₁ run : List PrTrack) (s₀ t : PrTrack)
    (hhead : (l₁ ++ run).head? = some s₀) (hs₀ : s₀.start ≠ 0)
    (hmid : ∀ x ∈ run.dropLast, x.end_ = 0)
    (hlast : run.getLast? = some t) (ht : t.end_ ≠ 0)
    (hbreak : ∀ u, l₁.getLast? = some u → u.end_ ≠ 0)
    (hS : ((run.map PrTrack.pressure_time).sum) ≠ 0) :
    ((fill_missing_segment_pressures (l₁ ++ run)).head?).map PrTrack.start
        = some s₀.start ∧
    ((fill_missing_segment_pressures (l₁ ++ run)).getLast?).map PrTrack.end_
        = some t.end_ := by
  have hrun_ne : run ≠ [] := by
    intro hc
    rw [hc] at hlast
    simp at hlast
  obtain ⟨r₀, rr, hrr⟩ := List.exists_cons_of_ne_nil hrun_ne
  rw [fill_append l₁ run hbreak]
  constructor
  · cases l₁ with
    | nil =>
      rw [List.nil_append] at hhead
      rw [hrr] at hhead ⊢
      simp only [List.head?_cons, Option.some.injEq] at hhead
      subst hhead
      rw [fill_eq_nil, List.nil_append]
      exact fill_head_start r₀ rr hs₀
    | cons a t₁ =>
      rw [List.cons_append, List.head?_cons, Option.some.injEq] at hhead
      rw [← hhead] at hs₀ ⊢
      have hne : fill_missing_segment_pressures (a :: t₁) ≠ [] :=
        fill_ne_nil (by simp)
      obtain ⟨f₀, fr, hf⟩ := List.exists_cons_of_ne_nil hne
      have := fill_head_start a t₁ hs₀
      rw [hf] at this ⊢
      simpa using this
  · rw [List.getLast?_append_of_ne_nil _ (fill_ne_nil hrun_ne)]
    rw [hrr] at hmid hlast hS ⊢
    rw [fill_of_run r₀ rr hmid]
    have hlen : (doleRun (if r₀.start = 0 then runEnd r₀.start (r₀ :: rr) else r₀.start)
        (runEnd r₀.start (r₀ :: rr)) (((r₀ :: rr).map PrTrack.pressure_time).sum) 0
        (if r₀.start = 0 then runEnd r₀.start (r₀ :: rr) else r₀.start)
        (r₀ :: rr)).length = (r₀ :: rr).length := doleRun_length _ _ _ _ _ _
    rw [List.getLast?_eq_getElem?, hlen]
    have hk : (r₀ :: rr).length - 1 < (r₀ :: rr).length := by simp
    rw [doleRun_getElem_end _ _ _ _ _ _ _ hk]
    have hsucc : (r₀ :: rr).length - 1 + 1 = (r₀ :: rr).length := by simp
    rw [hsucc]
    have hfull : prefixPT (r₀ :: rr) (r₀ :: rr).length
        = ((r₀ :: rr).map PrTrack.pressure_time).sum := by
      simp [prefixPT, List.take_length]
    rw [hfull, zero_add, pressureAt_total _ _ _ hS]
    simp only [runEnd, hlast]
    rw [if_neg ht]

/-- C3 witness: the amended theorem applied to the concrete two-segment run
with known boundaries 100 and 50 and pressure-times 3 and 5. -/
theorem C3_amended_witness :
    ((fill_missing_segment_pressures
        ([] ++ [mkSeg 100 0 0 10 3, mkSeg 0 50 10 20 5])).head?).map PrTrack.start
      = some (mkSeg 100 0 0 10 3).start ∧
    ((fill_missing_segment_pressures
        ([] ++ [mkSeg 100 0 0 10 3, mkSeg 0 50 10 20 5])).getLast?).map PrTrack.end_
      = some (mkSeg 0 50 10 20 5).end_ :=
  C3_amended_ok [] [mkSeg 100 0 0 10 3, mkSeg 0 50 10 20 5]
    (mkSeg 100 0 0 10 3) (mkSeg 0 50 10 20 5)
    (by decide) (by decide) (by decide) (by decide) (by decide) (by decide) (by decide)

/-- C4 (amended): in a maximal run, each segment's reconciled end pressure is
`start − (start − end)·pt/pt_sum` — computed exactly and truncated toward
zero by the `int` store, which is what `pressureAt` denotes — where `pt` is
the running pressure-time through that segment; when `pt_sum = 0` every
boundary is left at `start` (also `pressureAt`); and each reconciled end is
propagated as the next segment's start. -/
theorem C4_amended_ok (s : PrTrack) (tail : List PrTrack)
    (hmid : ∀ x ∈ (s :: tail).dropLast, x.end_ = 0)
    (k : Nat) (hk : k < (s :: tail).length) :
    ((fill_missing_segment_pressures (s :: tail))[k]?).map PrTrack.end_
        = some (pressureAt (if s.start = 0 then runEnd s.start (s :: tail) else s.start)
            (runEnd s.start (s :: tail)) (((s :: tail).map PrTrack.pressure_time).sum)
            (prefixPT (s :: tail) (k + 1))) ∧
    (k + 1 < (s :: tail).length →
      ((fill_missing_segment_pressures (s :: tail))[k + 1]?).map PrTrack.start
        = ((fill_missing_segment_pressures (s :: tail))[k]?).map PrTrack.end_) := by
  rw [fill_of_run s tail hmid]
  constructor
  · rw [doleRun_getElem_end _ _ _ _ _ _ _ hk, zero_add]
  · intro hk1
    rw [doleRun_getElem_start _ _ _ _ _ _ _ hk1,
      doleRun_getElem_end _ _ _ _ _ _ _ hk]
    simp

/-- C4 witness: the amended formula on the concrete run with boundaries 100
and 50 and pressure-times 3 and 5: the first segment's reconciled end is 81
(the truncation of 100 − 50·3/8 = 81.25) and it becomes the second
segment's start. -/
theorem C4_amended_witness :
    ((fill_missing_segment_pressures [mkSeg 100 0 0 10 3, mkSeg 0 50 10 20 5])[0]?).map
        PrTrack.end_ = some 81 ∧
    ((fill_missing_segment_pressures [mkSeg 100 0 0 10 3, mkSeg 0 50 10 20 5])[1]?).map
        PrTrack.start
      = ((fill_missing_segment_pressures [mkSeg 100 0 0 10 3, mkSeg 0 50 10 20 5])[0]?).map
        PrTrack.end_ := by
  have h := C4_amended_ok (mkSeg 100 0 0 10 3) [mkSeg 0 50 10 20 5] (by decide) 0 (by decide)
  exact ⟨h.1.trans (by decide), h.2 (by decide)⟩

/-- C4 counterexample to the claim as stated (exact, untruncated formula):
for the run with start 100, end 99 and pressure-times 1 and 1, the claim's
`start − (start − end)×pt/pt_sum` gives 100 − 1·1/2 = 99.5 for the first
segment, but the code stores the integer 99. -/
theorem C4_counterexample :
    ((fill_missing_segment_pressures [mkSeg 100 0 0 10 1, mkSeg 0 99 10 20 1])[0]?).map
        PrTrack.end_ = some 99 ∧
    ((99 : ℚ) ≠ (100 : ℚ) - ((100 : ℚ) - 99) * 1 / 2) :=
  ⟨by decide, by norm_num⟩

theorem floor_sub_floor_le_ceil (x y : ℚ) : ⌊x⌋ - ⌊y⌋ ≤ ⌈x - y⌉ := by
  have h1 : (⌊x⌋ : ℚ) ≤ x := Int.floor_le x
  have h2 : (y : ℚ) - 1 < ⌊y⌋ := Int.sub_one_lt_floor y
  have h3 : x - y ≤ (⌈x - y⌉ : ℚ) := Int.le_ceil _
  have h4 : ((⌊x⌋ - ⌊y⌋ : Int) : ℚ) < ((⌈x - y⌉ + 1 : Int) : ℚ) := by
    push_cast
    linarith
  have h5 : ⌊x⌋ - ⌊y⌋ < ⌈x - y⌉ + 1 := by exact_mod_cast h4
  omega

theorem ceil_sub_one_le_floor_sub_floor (x y : ℚ) : ⌈x - y⌉ - 1 ≤ ⌊x⌋ - ⌊y⌋ := by
  have h1 : x < (⌊x⌋ : ℚ) + 1 := Int.lt_floor_add_one x
  have h2 : (⌊y⌋ : ℚ) ≤ y := Int.floor_le y
  have h3 : ⌈x - y⌉ ≤ ⌊x⌋ - ⌊y⌋ + 1 := by
    rw [Int.ceil_le]
    push_cast
    linarith
  omega

theorem prefixPT_nonneg (l : List PrTrack)
    (h : ∀ x ∈ l, 0 ≤ x.pressure_time) (k : Nat) : 0 ≤ prefixPT l k := by
  apply List.sum_nonneg
  intro a ha
  simp only [List.mem_map] at ha
  obtain ⟨x, hx, rfl⟩ := ha
  exact h x (List.take_subset k l hx)

theorem prefixPT_le_total (l : List PrTrack)
    (h : ∀ x ∈ l, 0 ≤ x.pressure_time) (k : Nat) :
    prefixPT l k ≤ (l.map PrTrack.pressure_time).sum := by
  have hd : 0 ≤ ((l.drop k).map PrTrack.pressure_time).sum := by
    apply List.sum_nonneg
    intro a ha
    simp only [List.mem_map] at ha
    obtain ⟨x, hx, rfl⟩ := ha
    exact h x (List.drop_subset k l hx)
  have hsplit : (l.map PrTrack.pressure_time).sum
      = prefixPT l k + ((l.drop k).map PrTrack.pressure_time).sum := by
    unfold prefixPT
    rw [← List.sum_append, ← List.map_append, List.take_append_drop]
  omega

theorem pressureAt_eq_floor (st e S pt : Int) (hS : 0 < S)
    (hnum : 0 ≤ st * S - (st - e) * pt) :
    pressureAt st e S pt = ⌊((st * S - (st - e) * pt : Int) : ℚ) / (S : ℚ)⌋ := by
  unfold pressureAt trunc_div
  rw [if_pos (by omega : S ≠ 0), Int.tdiv_eq_ediv hnum (le_of_lt hS)]
  have hSn : ((S.toNat : ℕ) : ℤ) = S := Int.toNat_of_nonneg (le_of_lt hS)
  have hcast : ((S.toNat : ℕ) : ℚ) = (S : ℚ) := by
    rw [← hSn]
    push_cast
    rfl
  rw [← hcast, Rat.floor_intCast_div_natCast, hSn]

/-- C6 (amended): within a single redistributed run whose net pressure
change is a decrease (with non-negative per-segment pressure-times and a
non-negative run end pressure), if segment A has strictly greater
accumulated pressure-time than segment B then A's assigned drop (start minus
reconciled end) is at least B's drop minus one pressure unit — the integer
truncation of each boundary can cost one unit; with exact arithmetic A's
drop is at least B's. -/
theorem C6_amended_ok (s : PrTrack) (tail : List PrTrack)
    (hmid : ∀ x ∈ (s :: tail).dropLast, x.end_ = 0)
    (hpt : ∀ x ∈ s :: tail, 0 ≤ x.pressure_time)
    (he0 : 0 ≤ runEnd s.start (s :: tail))
    (hdec : runEnd s.start (s :: tail)
        < (if s.start = 0 then runEnd s.start (s :: tail) else s.start))
    (i j : Nat) (hi : i < (s :: tail).length) (hj : j < (s :: tail).length)
    (A B : PrTrack) (hA : (s :: tail)[i]? = some A) (hB : (s :: tail)[j]? = some B)
    (hAB : B.pressure_time < A.pressure_time) :
    ∀ x y, (fill_missing_segment_pressures (s :: tail))[i]? = some x →
      (fill_missing_segment_pressures (s :: tail))[j]? = some y →
      (y.start - y.end_) - 1 ≤ x.start - x.end_ := by
  intro x y hx hy
  rw [fill_of_run s tail hmid] at hx hy
  set e := runEnd s.start (s :: tail) with he_def
  set st := if s.start = 0 then e else s.start with hst_def
  set S := ((s :: tail).map PrTrack.pressure_time).sum with hS_def
  have hxe := doleRun_getElem_end st e S (s :: tail) 0 st i hi
  rw [hx] at hxe
  simp only [Option.map_some', Option.some.injEq, zero_add] at hxe
  have hye := doleRun_getElem_end st e S (s :: tail) 0 st j hj
  rw [hy] at hye
  simp only [Option.map_some', Option.some.injEq, zero_add] at hye
  have hxs := doleRun_getElem_start st e S (s :: tail) 0 st i hi
  rw [hx] at hxs
  simp only [Option.map_some', Option.some.injEq, zero_add] at hxs
  have hys := doleRun_getElem_start st e S (s :: tail) 0 st j hj
  rw [hy] at hys
  simp only [Option.map_some', Option.some.injEq, zero_add] at hys
  have hxstart : x.start = pressureAt st e S (prefixPT (s :: tail) i) := by
    rw [hxs]
    cases i with
    | zero => rw [if_pos rfl, prefixPT_zero, pressureAt_pt_zero]
    | succ m => rw [if_neg (Nat.succ_ne_zero m)]
  have hystart : y.start = pressureAt st e S (prefixPT (s :: tail) j) := by
    rw [hys]
    cases j with
    | zero => rw [if_pos rfl, prefixPT_zero, pressureAt_pt_zero]
    | succ m => rw [if_neg (Nat.succ_ne_zero m)]
  by_cases hS0 : S = 0
  · rw [hxstart, hxe, hystart, hye, hS0]
    simp only [pressureAt_S_zero]
    omega
  · have hS_nonneg : 0 ≤ S := by
      apply List.sum_nonneg
      intro a ha
      simp only [List.mem_map] at ha
      obtain ⟨u, hu, rfl⟩ := ha
      exact hpt u hu
    have hSpos : 0 < S := lt_of_le_of_ne hS_nonneg (Ne.symm hS0)
    have hnum : ∀ p : Int, 0 ≤ p → p ≤ S → 0 ≤ st * S - (st - e) * p := by
      intro p hp0 hpS
      have h1 : (st - e) * p ≤ (st - e) * S :=
        mul_le_mul_of_nonneg_left hpS (by omega)
      have h2 : st * S - (st - e) * S = e * S := by ring
      have h3 : 0 ≤ e * S := mul_nonneg he0 hS_nonneg
      omega
    have hpre0 : ∀ k : Nat, 0 ≤ prefixPT (s :: tail) k :=
      fun k => prefixPT_nonneg (s :: tail) hpt k
    have hpreS : ∀ k : Nat, prefixPT (s :: tail) k ≤ S :=
      fun k => prefixPT_le_total (s :: tail) hpt k
    have hfl : ∀ p : Int, 0 ≤ p → p ≤ S →
        pressureAt st e S p = ⌊((st * S - (st - e) * p : Int) : ℚ) / (S : ℚ)⌋ :=
      fun p hp0 hpS => pressureAt_eq_floor st e S p hSpos (hnum p hp0 hpS)
    have hsuccA : prefixPT (s :: tail) (i + 1)
        = prefixPT (s :: tail) i + A.pressure_time :=
      prefixPT_succ_of_getElem (s :: tail) i A hA
    have hsuccB : prefixPT (s :: tail) (j + 1)
        = prefixPT (s :: tail) j + B.pressure_time :=
      prefixPT_succ_of_getElem (s :: tail) j B hB
    have hdiffA :
        ((st * S - (st - e) * prefixPT (s :: tail) i : Int) : ℚ) / (S : ℚ)
          - ((st * S - (st - e) * prefixPT (s :: tail) (i + 1) : Int) : ℚ) / (S : ℚ)
        = (((st - e) * A.pressure_time : Int) : ℚ) / (S : ℚ) := by
      rw [div_sub_div_same]
      congr 1
      push_cast [hsuccA]
      ring
    have hdiffB :
        ((st * S - (st - e) * prefixPT (s :: tail) j : Int) : ℚ) / (S : ℚ)
          - ((st * S - (st - e) * prefixPT (s :: tail) (j + 1) : Int) : ℚ) / (S : ℚ)
        = (((st - e) * B.pressure_time : Int) : ℚ) / (S : ℚ) := by
      rw [div_sub_div_same]
      congr 1
      push_cast [hsuccB]
      ring
    have hlowA :
        ⌈(((st - e) * A.pressure_time : Int) : ℚ) / (S : ℚ)⌉ - 1
          ≤ x.start - x.end_ := by
      rw [hxstart, hxe, hfl _ (hpre0 i) (hpreS i), hfl _ (hpre0 (i + 1)) (hpreS (i + 1)),
        ← hdiffA]
      exact ceil_sub_one_le_floor_sub_floor _ _
    have hhighB :
        y.start - y.end_ ≤ ⌈(((st - e) * B.pressure_time : Int) : ℚ) / (S : ℚ)⌉ := by
      rw [hystart, hye, hfl _ (hpre0 j) (hpreS j), hfl _ (hpre0 (j + 1)) (hpreS (j + 1)),
        ← hdiffB]
      exact floor_sub_floor_le_ceil _ _
    have hmono :
        ⌈(((st - e) * B.pressure_time : Int) : ℚ) / (S : ℚ)⌉
          ≤ ⌈(((st - e) * A.pressure_time : Int) : ℚ) / (S : ℚ)⌉ := by
      apply Int.ceil_mono
      apply div_le_div_of_nonneg_right ?hn ?hd
      case hd => exact_mod_cast hS_nonneg
      case hn =>
        have : (st - e) * B.pressure_time ≤ (st - e) * A.pressure_time :=
          mul_le_mul_of_nonneg_left (le_of_lt hAB) (by omega)
        exact_mod_cast this
    omega

/-- C6 witness: the amended bound on a decreasing run with pressure-times 2
and 1: the first segment (greater pressure-time) takes drop 7, the second
drop 3, and 3 − 1 ≤ 7. -/
theorem C6_amended_witness :
    fill_missing_segment_pressures [mkSeg 100 0 0 10 2, mkSeg 0 90 10 20 1]
      = [mkSeg 100 93 0 10 2, mkSeg 93 90 10 20 1] ∧
    (((mkSeg 93 90 10 20 1).start - (mkSeg 93 90 10 20 1).end_) - 1
      ≤ (mkSeg 100 93 0 10 2).start - (mkSeg 100 93 0 10 2).end_) :=
  ⟨by decide,
    C6_amended_ok (mkSeg 100 0 0 10 2) [mkSeg 0 90 10 20 1]
      (by decide) (by decide) (by decide) (by decide)
      0 1 (by decide) (by decide)
      (mkSeg 100 0 0 10 2) (mkSeg 0 90 10 20 1) (by decide) (by decide) (by decide)
      (mkSeg 100 93 0 10 2) (mkSeg 93 90 10 20 1) (by decide) (by decide)⟩

/-- C6 counterexample to the claim as stated: in the decreasing run with
start 100, end 97 and pressure-times [4, 5, 1], the truncated boundaries are
[98, 97, 97]; the second segment has strictly greater pressure-time (5 > 4)
than the first but its assigned drop is 1 < 2 — the claimed `≥` fails by one
unit. -/
theorem C6_counterexample :
    runEnd (mkSeg 100 0 0 10 4).start
        [mkSeg 100 0 0 10 4, mkSeg 0 0 10 20 5, mkSeg 0 97 20 30 1] = 97 ∧
    ((97 : Int) < 100) ∧
    ((4 : Int) < 5) ∧
    fill_missing_segment_pressures
        [mkSeg 100 0 0 10 4, mkSeg 0 0 10 20 5, mkSeg 0 97 20 30 1]
      = [mkSeg 100 98 0 10 4, mkSeg 98 97 10 20 5, mkSeg 97 97 20 30 1] ∧
    ¬((mkSeg 100 98 0 10 4).start - (mkSeg 100 98 0 10 4).end_
        ≤ (mkSeg 98 97 10 20 5).start - (mkSeg 98 97 10 20 5).end_) := by
  decide

/-- The pressure read for an entry in `fill_missing_tank_pressures` /
`get_pr_interpolate_data`: `DILUENT_PRESSURE(entry)` when the diluent flag
is set, `SENSOR_PRESSURE(entry)` otherwise. -/
def entryPressure (diluent_flag : Bool) (e : PlotData) : Int :=
  if diluent_flag then DILUENT_PRESSURE e else SENSOR_PRESSURE e

/-- The cylinder index used for an entry: the reserved `DILUENT_CYLINDER`
slot when the diluent flag is set, the entry's own `cylinderindex`
otherwise. -/
def entryCyl (diluent_flag : Bool) (e : PlotData) : Int :=
  if diluent_flag then DILUENT_CYLINDER else e.cylinderindex

/-- The `*save_pressure = v` store: the reported-sensor slot of the selected
track. -/
def writeSensor (diluent_flag : Bool) (v : Int) (e : PlotData) : PlotData :=
  if diluent_flag then { e with diluentpressure_sensor := v }
  else { e with pressure_sensor := v }

/-- The `*save_interpolated = v` store: the interpolated slot of the
selected track. -/
def writeInterp (diluent_flag : Bool) (v : Int) (e : PlotData) : PlotData :=
  if diluent_flag then { e with diluentpressure_interpolated := v }
  else { e with pressure_interpolated := v }

/-- The segment-cursor walk
`while (segment && segment->t_end < entry->sec) segment = segment->next`. -/
def findSegment : List PrTrack → Int → Option PrTrack
  | [], _ => none
  | s :: rest, sec => if s.t_end < sec then findSegment rest sec else some s

/-- The scan loop of `get_pr_interpolate_data`: `i` is the loop index,
`cur` the index of the entry being interpolated; the conditions and
early exits mirror the C statement for statement. -/
def gpid_go (segment : PrTrack) (diluent_flag : Bool) (cur : Nat) :
    Nat → List PlotData → PrInterpolate → PrInterpolate
  | _, [], itp => itp
  | i, e :: rest, itp =>
    let pressure := entryPressure diluent_flag e
    if e.sec < segment.t_start then
      gpid_go segment diluent_flag cur (i + 1) rest itp
    else if segment.t_end ≤ e.sec then
      { itp with pressure_time := itp.pressure_time + e.pressure_time }
    else if e.sec = segment.t_start then
      gpid_go segment diluent_flag cur (i + 1) rest
        { itp with acc_pressure_time := 0, pressure_time := 0,
                   start := if pressure ≠ 0 then pressure else itp.start }
    else if i < cur then
      if pressure ≠ 0 then
        gpid_go segment diluent_flag cur (i + 1) rest
          { itp with start := pressure, acc_pressure_time := 0, pressure_time := 0 }
      else
        gpid_go segment diluent_flag cur (i + 1) rest
          { itp with acc_pressure_time := itp.acc_pressure_time + e.pressure_time,
                     pressure_time := itp.pressure_time + e.pressure_time }
    else if i = cur then
      gpid_go segment diluent_flag cur (i + 1) rest
        { itp with acc_pressure_time := itp.acc_pressure_time + e.pressure_time,
                   pressure_time := itp.pressure_time + e.pressure_time }
    else
      if pressure ≠ 0 then
        { itp with pressure_time := itp.pressure_time + e.pressure_time,
                   end_ := pressure }
      else
        gpid_go segment diluent_flag cur (i + 1) rest
          { itp with pressure_time := itp.pressure_time + e.pressure_time }

/-- `get_pr_interpolate_data`: build the interpolation window for the entry
at index `cur` inside `segment`, scanning the whole profile from index 0. -/
def get_pr_interpolate_data (segment : PrTrack) (pi : List PlotData) (cur : Nat)
    (diluent_flag : Bool) : PrInterpolate :=
  gpid_go segment diluent_flag cur 0 pi
    { start := segment.start, end_ := segment.end_,
      acc_pressure_time := 0, pressure_time := 0 }

/-- One iteration of the transfer loop of `fill_missing_tank_pressures`
(loop body for profile index `i`), acting on the evolving entry list and the
per-cylinder current-pressure table `cur_pr`. -/
def fillStep (track : Int → List PrTrack) (diluent_flag : Bool)
    (stt : List PlotData × (Int → Int)) (i : Nat) : List PlotData × (Int → Int) :=
  let entries := stt.1
  let cur_pr := stt.2
  match entries[i]? with
  | none => (entries, cur_pr)
  | some entry =>
    let pressure := entryPressure diluent_flag entry
    let cyl := entryCyl diluent_flag entry
    if pressure ≠ 0 then
      (entries, fun c => if c = cyl then pressure else cur_pr c)
    else
      match findSegment (track cyl) entry.sec with
      | none => (entries.set i (writeSensor diluent_flag (cur_pr cyl) entry), cur_pr)
      | some segment =>
        if segment.pressure_time = 0 then
          (entries.set i (writeSensor diluent_flag (cur_pr cyl) entry), cur_pr)
        else
          let itp := get_pr_interpolate_data segment entries i diluent_flag
          let v :=
            if itp.pressure_time ≠ 0 then
              rint_div (itp.start * itp.pressure_time
                  + (itp.end_ - itp.start) * itp.acc_pressure_time) itp.pressure_time
            else cur_pr cyl
          (entries.set i (writeInterp diluent_flag v entry),
            fun c => if c = cyl then v else cur_pr c)

/-- The transfer loop of `fill_missing_tank_pressures`, iterating `fillStep`
from index `i` for `steps` iterations. -/
def fmtp_loop (track : Int → List PrTrack) (diluent_flag : Bool) :
    Nat → Nat → List PlotData × (Int → Int) → List PlotData × (Int → Int)
  | _, 0, stt => stt
  | i, steps + 1, stt =>
    fmtp_loop track diluent_flag (i + 1) steps (fillStep track diluent_flag stt i)

/-- The per-cylinder chains after the seeding loop of
`fill_missing_tank_pressures` ran `fill_missing_segment_pressures` on every
in-range slot (the loop runs `cyl` from 0 to `MAX_CYLINDERS - 1`; other
slots are untouched). -/
def cylFilledTrack (track : Int → List PrTrack) : Int → List PrTrack :=
  fun cyl =>
    if 0 ≤ cyl ∧ cyl < MAX_CYLINDERS then fill_missing_segment_pressures (track cyl)
    else track cyl

/-- The `cur_pr` table after the seeding loop: `-1` for an unused in-range
cylinder, the filled chain's head start pressure otherwise; out-of-range
slots are never initialised by the loop (modelled as 0). -/
def cylStartPr (track : Int → List PrTrack) : Int → Int :=
  fun cyl =>
    if 0 ≤ cyl ∧ cyl < MAX_CYLINDERS then
      match fill_missing_segment_pressures (track cyl) with
      | [] => -1
      | s :: _ => s.start
    else 0

/-- `fill_missing_tank_pressures`: seed the per-cylinder chains and current
pressures, then walk the profile from index 1 (the first entry is a filler)
interpolating every entry that lacks a reading. -/
def fill_missing_tank_pressures (pi : List PlotData) (track : Int → List PrTrack)
    (diluent_flag : Bool) : List PlotData :=
  (fmtp_loop (cylFilledTrack track) diluent_flag 1 (pi.length - 1)
    (pi, cylStartPr track)).1

/-- The concrete profile of the spec's worked scenario: readings 200 at t=0,
absent at t=10 and t=20, 170 at t=30, with per-interval pressure-time
contributions 5, 5, 10 (stored on the later entry of each interval). -/
def c8_profile : List PlotData :=
  [mkEntry 0 0 0 200 0 0, mkEntry 10 0 0 0 0 5, mkEntry 20 0 0 0 0 5,
   mkEntry 30 0 0 170 0 10]

/-- The segment chain the builder produces for the scenario's cylinder 0:
one segment from t=0 to t=30 with boundaries 200/170 and pressure-time 20. -/
def c8_track : Int → List PrTrack :=
  fun c => if c = 0 then [mkSeg 200 170 0 30 20] else []

/-- C8 counterexample to the claimed rounding: at t=10 the exact
interpolated value is 200 − (200−170)×5/20 = 192.5 and the claim says it
rounds to 193 (round half away from zero); the code's `rint` rounds ties to
even and stores 192. -/
theorem C8_counterexample :
    ((fill_missing_tank_pressures c8_profile c8_track false)[1]?).map
        PlotData.pressure_interpolated = some 192 ∧
    ((192 : Int) ≠ 193) :=
  ⟨by decide, by decide⟩

/-- C8 (amended): on the scenario's profile the point-level interpolation
assigns 185 at t=20, and 192 at t=10 — the exact value 192.5 is rounded by
`rint` under the default rounding mode, i.e. to the nearest even integer. -/
theorem C8_amended_ok :
    ((fill_missing_tank_pressures c8_profile c8_track false)[1]?).map
        PlotData.pressure_interpolated = some 192 ∧
    ((fill_missing_tank_pressures c8_profile c8_track false)[2]?).map
        PlotData.pressure_interpolated = some 185 :=
  ⟨by decide, by decide⟩

/-- `pr_track_alloc`: a fresh segment with the given start pressure and
start time; end pressure 0 (unknown), `t_end = t_start`, zero
pressure-time. -/
def pr_track_alloc (start t_start : Int) : PrTrack :=
  { start := start, end_ := 0, t_start := t_start, t_end := t_start,
    pressure_time := 0 }

/-- `list_add`: append a segment at the tail of a cylinder's chain. -/
def trackAdd (track : Int → List PrTrack) (cyl : Int) (seg : PrTrack) :
    Int → List PrTrack :=
  fun c => if c = cyl then track c ++ [seg] else track c

/-- Record the live current segment into its cylinder's chain.  In the C
code the segment object already sits in the list and is mutated through the
`current` pointer; here the fully-updated segment is appended when it is
retired (same final chains, in the same order). -/
def flushCur (track : Int → List PrTrack) :
    Option (Int × PrTrack) → (Int → List PrTrack)
  | none => track
  | some (c, seg) => trackAdd track c seg

/-- The scan state of `populate_pressure_information`: the cylinder index
last seen, the live current segment (with its owning cylinder), the
per-cylinder chains built so far, and the `missing_pr` flag. -/
structure BuildState where
  cylinderindex : Int
  cur : Option (Int × PrTrack)
  track : Int → List PrTrack
  missing_pr : Bool

/-- One iteration of the scan loop of `populate_pressure_information` for
entry `e` with previous entry `prev` (as stored, i.e. with its
pressure-time already written): returns the updated entry and the next
state.  When the cylinder index did not change, the previous entry exists
in the C code (the loop has run at least once); the `prev = none` case of
that branch is unreachable there and is modelled as the continuous-reading
path. -/
def populate_step (d2m : Int → Int) (prev : Option PlotData) (e : PlotData)
    (b : BuildState) : PlotData × BuildState :=
  let pressure := SENSOR_PRESSURE e
  let e' := match b.cur, prev with
    | some _, some p => { e with pressure_time := calc_pressure_time d2m p e }
    | _, _ => e
  let cur' : Option (Int × PrTrack) := match b.cur, prev with
    | some (c, seg), some p =>
        some (c, { seg with
          pressure_time := seg.pressure_time + calc_pressure_time d2m p e,
          t_end := e.sec })
    | c, _ => c
  if e.cylinderindex ≠ b.cylinderindex then
    (e', { cylinderindex := e.cylinderindex,
           cur := some (e.cylinderindex, pr_track_alloc pressure e.sec),
           track := flushCur b.track cur', missing_pr := b.missing_pr })
  else if pressure = 0 then
    (e', { b with cur := cur', missing_pr := true })
  else
    let cur2 : Option (Int × PrTrack) := match cur' with
      | some (c, seg) => some (c, { seg with end_ := pressure })
      | none => none
    match prev with
    | some p =>
      if SENSOR_PRESSURE p ≠ 0 then
        (e', { b with cur := cur2 })
      else
        (e', { b with
          cur := some (b.cylinderindex, pr_track_alloc pressure e.sec),
          track := flushCur b.track cur2 })
    | none => (e', { b with cur := cur2 })

/-- The scan loop of `populate_pressure_information` over the remaining
entries. -/
def populate_go (d2m : Int → Int) :
    List PlotData → Option PlotData → BuildState → List PlotData × BuildState
  | [], _, b => ([], b)
  | e :: rest, prev, b =>
    let s := populate_step d2m prev e b
    let r := populate_go d2m rest (some s.1) s.2
    (s.1 :: r.1, r.2)

/-- `populate_pressure_information`: scan the profile building the
per-cylinder segment chains and the pressure-time integrals, then — if any
reading was missing — run `fill_missing_tank_pressures` over the result. -/
def populate_pressure_information (d2m : Int → Int) (pi : List PlotData) :
    List PlotData :=
  let r := populate_go d2m pi none
    { cylinderindex := -1, cur := none, track := fun _ => [], missing_pr := false }
  let track := flushCur r.2.track r.2.cur
  if r.2.missing_pr then fill_missing_tank_pressures r.1 track false else r.1

/-- Concrete profile for the frame-effect counterexample: a reading 200 at
t=0 then a missing reading at t=10 over a surface interval (zero
pressure-time). -/
def c2_profile : List PlotData :=
  [mkEntry 0 0 0 200 0 0, mkEntry 10 0 0 0 0 0]

example :
    ((populate_pressure_information (fun _ => 1000) c2_profile)[1]?).map
      SENSOR_PRESSURE = some 200 := by decide

/-- Normalise an entry's derived pressure-time field; two entries with equal
`stripPT` agree on every other field. -/
def stripPT (e : PlotData) : PlotData := { e with pressure_time := 0 }

theorem stripPT_sensor (a : PlotData) :
    (stripPT a).pressure_sensor = a.pressure_sensor := rfl

theorem stripPT_cyl (a : PlotData) :
    (stripPT a).cylinderindex = a.cylinderindex := rfl

theorem option_field_of_stripPT {o₁ o₂ : Option PlotData} (f : PlotData → Int)
    (hf : ∀ a, f (stripPT a) = f a)
    (h : o₁.map stripPT = o₂.map stripPT) : o₁.map f = o₂.map f := by
  have h1 : o₁.map f = (o₁.map stripPT).map f := by
    cases o₁ <;> simp [hf]
  have h2 : o₂.map f = (o₂.map stripPT).map f := by
    cases o₂ <;> simp [hf]
  rw [h1, h2, h]

theorem populate_step_entry (d2m : Int → Int) (prev : Option PlotData)
    (e : PlotData) (b : BuildState) :
    stripPT (populate_step d2m prev e b).1 = stripPT e := by
  rcases prev with _ | p <;> rcases hb : b.cur with _ | ⟨c, seg⟩ <;>
    simp only [populate_step, hb] <;> split_ifs <;> rfl

theorem populate_go_fields (d2m : Int → Int) :
    ∀ (l : List PlotData) (prev : Option PlotData) (b : BuildState) (j : Nat),
      (((populate_go d2m l prev b).1)[j]?).map stripPT = (l[j]?).map stripPT := by
  intro l
  induction l with
  | nil => intro prev b j; rfl
  | cons e rest ih =>
    intro prev b j
    cases j with
    | zero => simp [populate_go, populate_step_entry]
    | succ j => simp [populate_go, List.getElem?_cons_succ, ih]

theorem populate_go_sensors (d2m : Int → Int) :
    ∀ (l : List PlotData) (prev : Option PlotData) (b : BuildState),
      (∀ x ∈ l, SENSOR_PRESSURE x ≠ 0) →
      ∀ x ∈ (populate_go d2m l prev b).1, SENSOR_PRESSURE x ≠ 0 := by
  intro l
  induction l with
  | nil => intro prev b _ x hx; simp [populate_go] at hx
  | cons e rest ih =>
    intro prev b hl x hx
    simp only [populate_go, List.mem_cons] at hx
    rcases hx with hx | hx
    · subst hx
      have h1 := populate_step_entry d2m prev e b
      have h2 : SENSOR_PRESSURE (populate_step d2m prev e b).1
          = SENSOR_PRESSURE e := by
        have := congrArg PlotData.pressure_sensor h1
        simpa [stripPT, SENSOR_PRESSURE] using this
      rw [h2]
      exact hl e (List.mem_cons_self e rest)
    · exact ih (some (populate_step d2m prev e b).1) (populate_step d2m prev e b).2
        (fun y hy => hl y (List.mem_cons_of_mem e hy)) x hx

theorem populate_step_missing_of_present (d2m : Int → Int) (prev : Option PlotData)
    (e : PlotData) (b : BuildState) (hp : SENSOR_PRESSURE e ≠ 0) :
    (populate_step d2m prev e b).2.missing_pr = b.missing_pr := by
  rcases prev with _ | p <;> rcases hb : b.cur with _ | ⟨c, seg⟩ <;>
    simp only [populate_step, hb] <;> split_ifs <;> simp_all

theorem populate_go_missing_of_all_present (d2m : Int → Int) :
    ∀ (l : List PlotData) (prev : Option PlotData) (b : BuildState),
      (∀ x ∈ l, SENSOR_PRESSURE x ≠ 0) →
      (populate_go d2m l prev b).2.missing_pr = b.missing_pr := by
  intro l
  induction l with
  | nil => intro prev b _; rfl
  | cons e rest ih =>
    intro prev b hl
    simp only [populate_go]
    rw [ih (some (populate_step d2m prev e b).1) (populate_step d2m prev e b).2
      (fun y hy => hl y (List.mem_cons_of_mem e hy))]
    exact populate_step_missing_of_present d2m prev e b (hl e (List.mem_cons_self e rest))

theorem populate_noFill (d2m : Int → Int) (pi : List PlotData)
    (hs : ∀ x ∈ pi, SENSOR_PRESSURE x ≠ 0) :
    populate_pressure_information d2m pi
      = (populate_go d2m pi none
          { cylinderindex := -1, cur := none, track := fun _ => [],
            missing_pr := false }).1 := by
  unfold populate_pressure_information
  simp only
  rw [populate_go_missing_of_all_present d2m pi none _ hs]
  simp

theorem populate_fields_of_all_present (d2m : Int → Int) (pi : List PlotData)
    (hs : ∀ x ∈ pi, SENSOR_PRESSURE x ≠ 0) (j : Nat) :
    ((populate_pressure_information d2m pi)[j]?).map stripPT
      = (pi[j]?).map stripPT := by
  rw [populate_noFill d2m pi hs]
  exact populate_go_fields d2m pi none _ j

theorem populate_sensors_of_all_present (d2m : Int → Int) (pi : List PlotData)
    (hs : ∀ x ∈ pi, SENSOR_PRESSURE x ≠ 0) :
    ∀ x ∈ populate_pressure_information d2m pi, SENSOR_PRESSURE x ≠ 0 := by
  rw [populate_noFill d2m pi hs]
  exact populate_go_sensors d2m pi none _ hs

/-- C7: on a profile where every entry carries a real (non-zero) sensor
reading, the missing-pressure flag never gets set, so the gap filler is
skipped: running the full pipeline once or twice changes no interpolated
field (main or diluent) and preserves every reported pressure verbatim. -/
theorem C7_ok (d2m : Int → Int) (pi : List PlotData)
    (hs : ∀ x ∈ pi, SENSOR_PRESSURE x ≠ 0) :
    ∀ j : Nat,
      ((populate_pressure_information d2m pi)[j]?).map PlotData.pressure_interpolated
          = (pi[j]?).map PlotData.pressure_interpolated ∧
      ((populate_pressure_information d2m pi)[j]?).map
            PlotData.diluentpressure_interpolated
          = (pi[j]?).map PlotData.diluentpressure_interpolated ∧
      ((populate_pressure_information d2m pi)[j]?).map SENSOR_PRESSURE
          = (pi[j]?).map SENSOR_PRESSURE ∧
      ((populate_pressure_information d2m
            (populate_pressure_information d2m pi))[j]?).map
            PlotData.pressure_interpolated
          = (pi[j]?).map PlotData.pressure_interpolated ∧
      ((populate_pressure_information d2m
            (populate_pressure_information d2m pi))[j]?).map
            PlotData.diluentpressure_interpolated
          = (pi[j]?).map PlotData.diluentpressure_interpolated ∧
      ((populate_pressure_information d2m
            (populate_pressure_information d2m pi))[j]?).map SENSOR_PRESSURE
          = (pi[j]?).map SENSOR_PRESSURE := by
  intro j
  have h1 := populate_fields_of_all_present d2m pi hs j
  have hs2 := populate_sensors_of_all_present d2m pi hs
  have h2 := populate_fields_of_all_present d2m
    (populate_pressure_information d2m pi) hs2 j
  have h12 := h2.trans h1
  refine ⟨?_, ?_, ?_, ?_, ?_, ?_⟩
  · exact option_field_of_stripPT PlotData.pressure_interpolated (fun a => rfl) h1
  · exact option_field_of_stripPT PlotData.diluentpressure_interpolated (fun a => rfl) h1
  · exact option_field_of_stripPT SENSOR_PRESSURE (fun a => rfl) h1
  · exact option_field_of_stripPT PlotData.pressure_interpolated (fun a => rfl) h12
  · exact option_field_of_stripPT PlotData.diluentpressure_interpolated (fun a => rfl) h12
  · exact option_field_of_stripPT SENSOR_PRESSURE (fun a => rfl) h12

/-- Concrete fully-resolved profile used by the C7 witness. -/
def c7_profile : List PlotData :=
  [mkEntry 0 0 0 200 0 0, mkEntry 10 0 0 210 0 0]

/-- C7 witness: the idempotence statement at index 1 of a concrete
fully-resolved profile. -/
theorem C7_witness :
    ((populate_pressure_information (fun _ => 1000) c7_profile)[1]?).map
          PlotData.pressure_interpolated
        = (c7_profile[1]?).map PlotData.pressure_interpolated ∧
    ((populate_pressure_information (fun _ => 1000)
          (populate_pressure_information (fun _ => 1000) c7_profile))[1]?).map
          SENSOR_PRESSURE
        = (c7_profile[1]?).map SENSOR_PRESSURE := by
  have h := C7_ok (fun _ => 1000) c7_profile (by decide) 1
  exact ⟨h.1, h.2.2.2.2.2⟩

/-- The per-pair condition of claim C10, relative to the previous entry's
cylinder index and sensor reading: an absent reading is allowed only at an
entry that opens a new segment — a cylinder change or a transmitter-recovery
entry (the latter is vacuous for an absent reading, since a recovery entry
carries a reading by definition). -/
def opensOnlyFrom : Int → Int → List PlotData → Bool
  | _, _, [] => true
  | pcyl, psensor, e :: r =>
    (if e.pressure_sensor = 0 then
        decide (e.cylinderindex ≠ pcyl
          ∨ (e.pressure_sensor ≠ 0 ∧ psensor = 0))
      else true)
    && opensOnlyFrom e.cylinderindex e.pressure_sensor r

/-- Claim C10's profile condition: every absent sensor reading occurs only
at an entry that opens a new segment (the first entry, a cylinder-change
entry, or a transmitter-recovery entry). -/
def opensOnly : List PlotData → Bool
  | [] => true
  | e :: r => opensOnlyFrom e.cylinderindex e.pressure_sensor r

theorem populate_step_missing_opens (d2m : Int → Int) (p e : PlotData)
    (b : BuildState) (hcy : b.cylinderindex = p.cylinderindex)
    (hm : b.missing_pr = false)
    (hcond : e.pressure_sensor = 0 → e.cylinderindex ≠ p.cylinderindex) :
    (populate_step d2m (some p) e b).2.missing_pr = false ∧
    (populate_step d2m (some p) e b).2.cylinderindex = e.cylinderindex := by
  by_cases h1 : e.cylinderindex ≠ b.cylinderindex
  · rcases hb : b.cur with _ | ⟨c, seg⟩ <;>
      simp only [populate_step, hb, if_pos h1] <;> simp [hm]
  · push_neg at h1
    have h2 : SENSOR_PRESSURE e ≠ 0 := by
      intro h0
      exact hcond (by simpa [SENSOR_PRESSURE] using h0) (h1.trans hcy)
    rcases hb : b.cur with _ | ⟨c, seg⟩ <;>
      simp only [populate_step, hb, if_neg (not_not_intro h1), if_neg h2] <;>
      split_ifs <;> simp [hm, h1]

theorem populate_go_missing_opens (d2m : Int → Int) :
    ∀ (l : List PlotData) (p : PlotData) (b : BuildState),
      b.cylinderindex = p.cylinderindex → b.missing_pr = false →
      opensOnlyFrom p.cylinderindex p.pressure_sensor l = true →
      (populate_go d2m l (some p) b).2.missing_pr = false := by
  intro l
  induction l with
  | nil => intro p b _ hm _; exact hm
  | cons e rest ih =>
    intro p b hcy hm hopen
    simp only [opensOnlyFrom, Bool.and_eq_true] at hopen
    have hcond : e.pressure_sensor = 0 → e.cylinderindex ≠ p.cylinderindex := by
      intro h0
      have := hopen.1
      rw [if_pos h0] at this
      have hd := of_decide_eq_true this
      rcases hd with hd | hd
      · exact hd
      · exact absurd h0 hd.1
    have hstep := populate_step_missing_opens d2m p e b hcy hm hcond
    have heq := populate_step_entry d2m (some p) e b
    have hcyl1 : (populate_step d2m (some p) e b).1.cylinderindex
        = e.cylinderindex := by
      have := congrArg PlotData.cylinderindex heq
      simpa [stripPT] using this
    have hsen1 : (populate_step d2m (some p) e b).1.pressure_sensor
        = e.pressure_sensor := by
      have := congrArg PlotData.pressure_sensor heq
      simpa [stripPT] using this
    simp only [populate_go]
    exact ih (populate_step d2m (some p) e b).1 (populate_step d2m (some p) e b).2
      (by rw [hstep.2, hcyl1]) hstep.1
      (by rw [hcyl1, hsen1]; exact hopen.2)

/-- C10: on a profile where every absent sensor reading occurs only at an
entry that opens a new segment (the first entry, a cylinder-change entry, or
a transmitter-recovery entry — the latter vacuous for an absent reading),
the missing-pressure flag is never set, so the entire gap-filling pass is
skipped: every interpolated-pressure field stays as it was and the reported
pressures are untouched, even though those segments' start pressures are
unknown.  (Cylinder indices are assumed non-negative, as in any well-formed
profile.) -/
theorem C10_ok (d2m : Int → Int) (pi : List PlotData)
    (hcyl : ∀ x ∈ pi, 0 ≤ x.cylinderindex)
    (hopen : opensOnly pi = true) :
    (populate_go d2m pi none
        { cylinderindex := -1, cur := none, track := fun _ => [],
          missing_pr := false }).2.missing_pr = false ∧
    ∀ j : Nat,
      ((populate_pressure_information d2m pi)[j]?).map PlotData.pressure_interpolated
          = (pi[j]?).map PlotData.pressure_interpolated ∧
      ((populate_pressure_information d2m pi)[j]?).map
            PlotData.diluentpressure_interpolated
          = (pi[j]?).map PlotData.diluentpressure_interpolated ∧
      ((populate_pressure_information d2m pi)[j]?).map SENSOR_PRESSURE
          = (pi[j]?).map SENSOR_PRESSURE := by
  have hmiss : (populate_go d2m pi none
      { cylinderindex := -1, cur := none, track := fun _ => [],
        missing_pr := false }).2.missing_pr = false := by
    cases pi with
    | nil => rfl
    | cons e0 rest =>
      have hc0 : 0 ≤ e0.cylinderindex := hcyl e0 (List.mem_cons_self e0 rest)
      have hne : e0.cylinderindex ≠ (-1 : Int) := by omega
      simp only [populate_go]
      have hstep1 : (populate_step d2m none e0
          { cylinderindex := -1, cur := none, track := fun _ => [],
            missing_pr := false }).1 = e0 := by
        simp only [populate_step, if_pos hne]
      have hstep2m : (populate_step d2m none e0
          { cylinderindex := -1, cur := none, track := fun _ => [],
            missing_pr := false }).2.missing_pr = false := by
        simp only [populate_step, if_pos hne]
      have hstep2c : (populate_step d2m none e0
          { cylinderindex := -1, cur := none, track := fun _ => [],
            missing_pr := false }).2.cylinderindex = e0.cylinderindex := by
        simp only [populate_step, if_pos hne]
      simp only [opensOnly] at hopen
      exact populate_go_missing_opens d2m rest _ _
        (by rw [hstep2c, hstep1]) hstep2m (by rw [hstep1]; exact hopen)
  refine ⟨hmiss, ?_⟩
  intro j
  have hfields : ((populate_pressure_information d2m pi)[j]?).map stripPT
      = (pi[j]?).map stripPT := by
    unfold populate_pressure_information
    simp only
    rw [hmiss]
    simp only [Bool.false_eq_true, if_false]
    exact populate_go_fields d2m pi none _ j
  exact ⟨option_field_of_stripPT PlotData.pressure_interpolated (fun a => rfl) hfields,
    option_field_of_stripPT PlotData.diluentpressure_interpolated (fun a => rfl) hfields,
    option_field_of_stripPT SENSOR_PRESSURE (fun a => rfl) hfields⟩

/-- Concrete profile for the C10 witness: the absent readings sit at the
first entry and at a cylinder-change entry, whose segments' start pressures
are therefore unknown (0). -/
def c10_profile : List PlotData :=
  [mkEntry 0 0 0 0 0 0, mkEntry 10 0 1 0 0 0, mkEntry 20 0 1 150 0 0]

/-- C10 witness: on the concrete profile the flag stays unset and the entry
at index 1 keeps its (absent) interpolated and reported values. -/
theorem C10_witness :
    (populate_go (fun _ => 1000) c10_profile none
        { cylinderindex := -1, cur := none, track := fun _ => [],
          missing_pr := false }).2.missing_pr = false ∧
    ((populate_pressure_information (fun _ => 1000) c10_profile)[1]?).map
          PlotData.pressure_interpolated
        = (c10_profile[1]?).map PlotData.pressure_interpolated ∧
    ((populate_pressure_information (fun _ => 1000) c10_profile)[1]?).map
          SENSOR_PRESSURE
        = (c10_profile[1]?).map SENSOR_PRESSURE := by
  have h := C10_ok (fun _ => 1000) c10_profile (by decide) (by decide)
  exact ⟨h.1, (h.2 1).1, (h.2 1).2.2⟩

/-- C9: for an entry without a reading, if its owning segment does not exist
or carries zero accumulated pressure-time, the transfer loop stores the
per-cylinder last-known pressure unchanged (and the table itself is
unchanged); likewise, when the interpolation window's pressure-time is zero
the stored value is the unchanged last-known pressure.  All divisions are
guarded by these checks, so the functions are total: no fault is possible. -/
theorem C9_ok (track : Int → List PrTrack) (diluent_flag : Bool)
    (entries : List PlotData) (cur_pr : Int → Int) (i : Nat) (e : PlotData)
    (he : entries[i]? = some e) (hp : entryPressure diluent_flag e = 0) :
    ((findSegment (track (entryCyl diluent_flag e)) e.sec = none ∨
      (∃ seg, findSegment (track (entryCyl diluent_flag e)) e.sec = some seg ∧
        seg.pressure_time = 0)) →
      (fillStep track diluent_flag (entries, cur_pr) i).1
          = entries.set i
            (writeSensor diluent_flag (cur_pr (entryCyl diluent_flag e)) e) ∧
      ∀ c, (fillStep track diluent_flag (entries, cur_pr) i).2 c = cur_pr c) ∧
    (∀ seg, findSegment (track (entryCyl diluent_flag e)) e.sec = some seg →
      seg.pressure_time ≠ 0 →
      (get_pr_interpolate_data seg entries i diluent_flag).pressure_time = 0 →
      (fillStep track diluent_flag (entries, cur_pr) i).1
          = entries.set i
            (writeInterp diluent_flag (cur_pr (entryCyl diluent_flag e)) e) ∧
      ∀ c, (fillStep track diluent_flag (entries, cur_pr) i).2 c = cur_pr c) := by
  constructor
  · intro hseg
    rcases hseg with hseg | ⟨seg, hseg, hpt⟩
    · simp [fillStep, he, hseg, if_neg (not_not_intro hp)]
    · simp [fillStep, he, hseg, hpt, if_neg (not_not_intro hp)]
  · intro seg hseg hpt hitp
    simp only [fillStep, he, hseg, if_neg (not_not_intro hp), if_neg hpt, hitp,
      if_neg (not_not_intro rfl)]
    refine ⟨?_, fun c => ?_⟩
    · trivial
    · by_cases hc : c = entryCyl diluent_flag e
      · rw [if_pos hc, hc]
      · rw [if_neg hc]

/-- C9 witness: a missing entry whose cylinder has no chain at all: the
stored value is the current per-cylinder pressure (77) and the table is
unchanged. -/
theorem C9_witness :
    (fillStep (fun _ => []) false
        ([mkEntry 0 0 0 100 0 0, mkEntry 10 0 0 0 0 0], fun _ => (77 : Int)) 1).1
      = [mkEntry 0 0 0 100 0 0, mkEntry 10 0 0 0 0 0].set 1
          (writeSensor false 77 (mkEntry 10 0 0 0 0 0)) ∧
    (fillStep (fun _ => []) false
        ([mkEntry 0 0 0 100 0 0, mkEntry 10 0 0 0 0 0], fun _ => (77 : Int)) 1).2 5
      = 77 := by
  have h := C9_ok (fun _ => []) false [mkEntry 0 0 0 100 0 0, mkEntry 10 0 0 0 0 0]
    (fun _ => (77 : Int)) 1 (mkEntry 10 0 0 0 0 0) (by decide) (by decide)
  exact ⟨(h.1 (Or.inl rfl)).1, (h.1 (Or.inl rfl)).2 5⟩

theorem fillStep_entries_cases (track : Int → List PrTrack) (dil : Bool)
    (stt : List PlotData × (Int → Int)) (i : Nat) :
    (fillStep track dil stt i).1 = stt.1 ∨
    ∃ entry, stt.1[i]? = some entry ∧ entryPressure dil entry = 0 ∧
      ∃ x, (fillStep track dil stt i).1 = stt.1.set i x := by
  rcases hi : (stt.1)[i]? with _ | entry
  · left; simp [fillStep, hi]
  · by_cases hp : entryPressure dil entry ≠ 0
    · left; simp [fillStep, hi, hp]
    · push_neg at hp
      rcases hseg : findSegment (track (entryCyl dil entry)) entry.sec with _ | seg
      · right
        refine ⟨entry, rfl, hp, ?_⟩
        simp only [fillStep, hi, hseg, if_neg (not_not_intro hp)]
        exact ⟨_, rfl⟩
      · by_cases hpt : seg.pressure_time = 0
        · right
          refine ⟨entry, rfl, hp, ?_⟩
          simp only [fillStep, hi, hseg, if_neg (not_not_intro hp), if_pos hpt]
          exact ⟨_, rfl⟩
        · right
          refine ⟨entry, rfl, hp, ?_⟩
          simp only [fillStep, hi, hseg, if_neg (not_not_intro hp), if_neg hpt]
          exact ⟨_, rfl⟩

theorem fillStep_preserves_reading (pi0 : List PlotData)
    (track : Int → List PrTrack) (dil : Bool)
    (stt : List PlotData × (Int → Int)) (i : Nat)
    (hinv : ∀ (j : Nat) (v : PlotData), pi0[j]? = some v →
      entryPressure dil v ≠ 0 →
      ((stt.1)[j]?).map (entryPressure dil) = some (entryPressure dil v)) :
    ∀ (j : Nat) (v : PlotData), pi0[j]? = some v → entryPressure dil v ≠ 0 →
      (((fillStep track dil stt i).1)[j]?).map (entryPressure dil)
        = some (entryPressure dil v) := by
  intro j v hj hv
  rcases fillStep_entries_cases track dil stt i with hsame | ⟨entry, hi, hz, x, hset⟩
  · rw [hsame]; exact hinv j v hj hv
  · rw [hset]
    by_cases hij : i = j
    · subst hij
      have := hinv i v hj hv
      rw [hi] at this
      simp only [Option.map_some', Option.some.injEq] at this
      rw [hz] at this
      exact absurd this.symm hv
    · rw [List.getElem?_set_ne hij]
      exact hinv j v hj hv

theorem fmtp_loop_preserves_reading (pi0 : List PlotData)
    (track : Int → List PrTrack) (dil : Bool) :
    ∀ (steps i : Nat) (stt : List PlotData × (Int → Int)),
      (∀ (j : Nat) (v : PlotData), pi0[j]? = some v →
        entryPressure dil v ≠ 0 →
        ((stt.1)[j]?).map (entryPressure dil) = some (entryPressure dil v)) →
      ∀ (j : Nat) (v : PlotData), pi0[j]? = some v → entryPressure dil v ≠ 0 →
        (((fmtp_loop track dil i steps stt).1)[j]?).map (entryPressure dil)
          = some (entryPressure dil v) := by
  intro steps
  induction steps with
  | zero => intro i stt hinv; exact hinv
  | succ n ih =>
    intro i stt hinv
    exact ih (i + 1) (fillStep track dil stt i)
      (fillStep_preserves_reading pi0 track dil stt i hinv)

theorem fmtp_preserves_reading (pi : List PlotData) (track : Int → List PrTrack)
    (dil : Bool) (j : Nat) (v : PlotData) (hj : pi[j]? = some v)
    (hv : entryPressure dil v ≠ 0) :
    ((fill_missing_tank_pressures pi track dil)[j]?).map (entryPressure dil)
      = some (entryPressure dil v) := by
  unfold fill_missing_tank_pressures
  exact fmtp_loop_preserves_reading pi (cylFilledTrack track) dil (pi.length - 1) 1
    (pi, cylStartPr track)
    (fun j v hjv hvv => by rw [hjv]; rfl) j v hj hv

/-- C2 (amended): every entry carrying a real (non-zero) sensor reading
keeps its reported pressure unchanged through the whole pipeline; values
computed by point-level interpolation go to the interpolated slot.  (The
exception the counterexample exhibits: an absent-reading entry whose owning
segment is missing or has zero pressure-time receives the carried-forward
value in its reported-sensor slot.) -/
theorem C2_amended_ok (d2m : Int → Int) (pi : List PlotData) (j : Nat)
    (e : PlotData) (he : pi[j]? = some e) (hs : SENSOR_PRESSURE e ≠ 0) :
    ((populate_pressure_information d2m pi)[j]?).map SENSOR_PRESSURE
      = some (SENSOR_PRESSURE e) := by
  unfold populate_pressure_information
  simp only
  have hfields := populate_go_fields d2m pi none
    { cylinderindex := -1, cur := none, track := fun _ => [],
      missing_pr := false } j
  rw [he] at hfields
  rcases hr : (populate_go d2m pi none
      { cylinderindex := -1, cur := none, track := fun _ => [],
        missing_pr := false }).1[j]? with _ | e'
  · rw [hr] at hfields
    simp at hfields
  · rw [hr] at hfields
    simp only [Option.map_some', Option.some.injEq] at hfields
    have hsen : SENSOR_PRESSURE e' = SENSOR_PRESSURE e := by
      have := congrArg PlotData.pressure_sensor hfields
      simpa [stripPT, SENSOR_PRESSURE] using this
    by_cases hm : (populate_go d2m pi none
        { cylinderindex := -1, cur := none, track := fun _ => [],
          missing_pr := false }).2.missing_pr
    · rw [if_pos hm]
      have hys : entryPressure false e' ≠ 0 := by
        show SENSOR_PRESSURE e' ≠ 0
        rw [hsen]
        exact hs
      have h := fmtp_preserves_reading
        (populate_go d2m pi none
          { cylinderindex := -1, cur := none, track := fun _ => [],
            missing_pr := false }).1
        (flushCur (populate_go d2m pi none
            { cylinderindex := -1, cur := none, track := fun _ => [],
              missing_pr := false }).2.track
          (populate_go d2m pi none
            { cylinderindex := -1, cur := none, track := fun _ => [],
              missing_pr := false }).2.cur)
        false j e' hr hys
      have hep : entryPressure false = SENSOR_PRESSURE := rfl
      rw [hep] at h
      rw [h, hsen]
    · rw [if_neg hm, hr]
      simp [hsen]

/-- C2 witness: on the worked scenario's profile (which has missing readings
and therefore runs the gap filler), the first entry's real reading 200
survives the pipeline. -/
theorem C2_amended_witness :
    ((populate_pressure_information (fun _ => 1000) c8_profile)[0]?).map
        SENSOR_PRESSURE = some (SENSOR_PRESSURE (mkEntry 0 0 0 200 0 0)) :=
  C2_amended_ok (fun _ => 1000) c8_profile 0 (mkEntry 0 0 0 200 0 0)
    (by decide) (by decide)

/-- C2 counterexample: running the pipeline on a profile whose second entry
has no reading and a zero-pressure-time segment writes the carried-forward
value 200 into that entry's reported-sensor slot, which was 0 on input — the
reported field does not pass through unchanged and the gap filler's output
is not confined to the interpolated slot. -/
theorem C2_counterexample :
    (c2_profile[1]?).map SENSOR_PRESSURE = some 0 ∧
    ((populate_pressure_information (fun _ => 1000) c2_profile)[1]?).map
        SENSOR_PRESSURE = some 200 ∧
    ((0 : Int) ≠ 200) :=
  ⟨by decide, by decide, by decide⟩

/-- The diluent track of a profile entry re-labelled as a main-cylinder
entry: the diluent sensor and interpolated readings become the main ones and
the active cylinder is the reserved diluent slot.  The point-level
interpolation with the diluent flag behaves on the original entries exactly
as the main-cylinder pass behaves on this view. -/
def toDiluentView (e : PlotData) : PlotData :=
  { sec := e.sec, depth := e.depth, cylinderindex := DILUENT_CYLINDER,
    pressure_sensor := e.diluentpressure_sensor,
    pressure_interpolated := e.diluentpressure_interpolated,
    diluentpressure_sensor := 0, diluentpressure_interpolated := 0,
    pressure_time := e.pressure_time }

theorem gpid_go_diluent_view (segment : PrTrack) (cur : Nat) :
    ∀ (entries : List PlotData) (i : Nat) (itp : PrInterpolate),
      gpid_go segment false cur i (entries.map toDiluentView) itp
        = gpid_go segment true cur i entries itp := by
  intro entries
  induction entries with
  | nil => intro i itp; rfl
  | cons e rest ih =>
    intro i itp
    have h2 : entryPressure false (toDiluentView e) = entryPressure true e := rfl
    have h5 : (toDiluentView e).sec = e.sec := rfl
    have h6 : (toDiluentView e).pressure_time = e.pressure_time := rfl
    simp only [List.map_cons, gpid_go, h2, h5, h6]
    split_ifs <;> first | rfl | apply ih

theorem get_pr_interpolate_data_diluent_view (segment : PrTrack)
    (entries : List PlotData) (cur : Nat) :
    get_pr_interpolate_data segment (entries.map toDiluentView) cur false
      = get_pr_interpolate_data segment entries cur true :=
  gpid_go_diluent_view segment cur entries 0 _

theorem fillStep_diluent_view (track : Int → List PrTrack)
    (entries : List PlotData) (cur_pr : Int → Int) (i : Nat) :
    fillStep track false (entries.map toDiluentView, cur_pr) i
      = ((fillStep track true (entries, cur_pr) i).1.map toDiluentView,
         (fillStep track true (entries, cur_pr) i).2) := by
  rcases hi : entries[i]? with _ | e
  · have hmi : (entries.map toDiluentView)[i]? = none := by
      simp [List.getElem?_map, hi]
    simp [fillStep, hi, hmi]
  · have hmi : (entries.map toDiluentView)[i]? = some (toDiluentView e) := by
      simp [List.getElem?_map, hi]
    have h2 : entryPressure false (toDiluentView e) = entryPressure true e := rfl
    have h4 : entryCyl false (toDiluentView e) = entryCyl true e := rfl
    have h5 : (toDiluentView e).sec = e.sec := rfl
    have hws : ∀ v, writeSensor false v (toDiluentView e)
        = toDiluentView (writeSensor true v e) := fun v => rfl
    have hwi : ∀ v, writeInterp false v (toDiluentView e)
        = toDiluentView (writeInterp true v e) := fun v => rfl
    simp only [fillStep, hi, hmi, h2, h4, h5]
    by_cases hp : entryPressure true e ≠ 0
    · simp [hp]
    · rcases hseg : findSegment (track (entryCyl true e)) e.sec with _ | seg
      · simp only [hseg, if_neg hp, hws, List.map_set]
      · by_cases hpt : seg.pressure_time = 0
        · simp only [hseg, if_neg hp, if_pos hpt, hws, List.map_set]
        · simp only [hseg, if_neg hp, if_neg hpt, hwi,
            get_pr_interpolate_data_diluent_view, List.map_set]

theorem fmtp_loop_diluent_view (track : Int → List PrTrack) :
    ∀ (steps i : Nat) (entries : List PlotData) (cur_pr : Int → Int),
      fmtp_loop track false i steps (entries.map toDiluentView, cur_pr)
        = (((fmtp_loop track true i steps (entries, cur_pr)).1).map toDiluentView,
           (fmtp_loop track true i steps (entries, cur_pr)).2) := by
  intro steps
  induction steps with
  | zero => intro i entries cur_pr; rfl
  | succ n ih =>
    intro i entries cur_pr
    simp only [fmtp_loop]
    rw [fillStep_diluent_view track entries cur_pr i, ih]

/-- C5 (amended): the point-level interpolation's diluent mode is the
main-cylinder pass on the diluent view of the profile: with the diluent flag
it reads the diluent sensor fields, uses the reserved diluent cylinder slot
and writes the diluent interpolated fields exactly as the main pass does on
the re-labelled profile.  (The orchestrator in the source, however, only
ever invokes the main-cylinder pass — see the counterexample.) -/
theorem C5_amended_ok (pi : List PlotData) (track : Int → List PrTrack) :
    fill_missing_tank_pressures (pi.map toDiluentView) track false
      = (fill_missing_tank_pressures pi track true).map toDiluentView := by
  unfold fill_missing_tank_pressures
  rw [List.length_map]
  exact congrArg Prod.fst
    (fmtp_loop_diluent_view (cylFilledTrack track) (pi.length - 1) 1 pi
      (cylStartPr track))

/-- Concrete rebreather-style profile: main sensor readings all present,
diluent readings 200 at t=0, absent at t=10, 100 at t=20, with pressure-time
contributions 5 and 5. -/
def c5_profile : List PlotData :=
  [mkEntry 0 0 0 300 200 0, mkEntry 10 0 0 310 0 5, mkEntry 20 0 0 320 100 5]

/-- The diluent segment chain for that profile, in the reserved diluent
slot. -/
def c5_track : Int → List PrTrack :=
  fun c => if c = DILUENT_CYLINDER then [mkSeg 200 100 0 20 10] else []

/-- C5 counterexample: the engine (`populate_pressure_information`) never
runs a diluent pass — the missing diluent reading at t=10 stays
un-interpolated (0) — even though the point-level routine invoked with the
diluent flag would interpolate it to 150. -/
theorem C5_counterexample :
    ((populate_pressure_information (fun _ => 1000) c5_profile)[1]?).map
        PlotData.diluentpressure_interpolated = some 0 ∧
    ((fill_missing_tank_pressures c5_profile c5_track true)[1]?).map
        PlotData.diluentpressure_interpolated = some 150 ∧
    ((0 : Int) ≠ 150) :=
  ⟨by decide, by decide, by decide⟩
